import Mathlib

/-!
Shallow embedding of the vector/basis algebra and projection pipeline of
`src/src/utils/matrix3d.ts`.

Numbers: the TypeScript code computes with IEEE doubles.  The embedding is
parametric over a `LinearOrderedField K` together with an abstract square-root
function `sqrtFn : K → K` standing for `Math.sqrt`; algebraic claims are stated
over an arbitrary such field (witnesses instantiate `K := ℚ`).  The one claim
whose content is specifically about IEEE special values (`NaN`) is settled
against a dedicated model `JS` of JavaScript numbers with `NaN`/`Infinity`
constructors, instantiated at `K := ℝ` with `Real.sqrt`.

Vectors: the source's union type `Vector = Vector2D | Vector3D` is modelled as
a single structure with an optional `z` component; `is3D` detects the third
component exactly as the source's runtime check does.

Mutation: the source mutates vectors in place (`multiplyOn`, `addOn`,
`substractOn` assign to fields of their first argument and return it).  Two
semantics are given:
* value level (`Matrix3d.*`): each operation as the value transformation it
  performs on its first argument; `cloneOf` is the identity;
* store level (`Matrix3d.St.*`): explicit state passing over a `Store` of
  vector cells addressed by naturals, where `cloneOf` allocates a fresh cell
  and the in-place operations write through their first argument's address.
  This level settles the claims about aliasing and non-mutation.
-/

namespace Matrix3d

section Core

variable {K : Type} [LinearOrderedField K]

/-- The `Vector2D | Vector3D` from the source: `x`, `y` always present, `z`
present exactly on 3D vectors (`z?: number` at runtime). -/
structure Vector (K : Type) where
  x : K
  y : K
  z : Option K
  deriving DecidableEq

/-- The `is3D(vector)`: the third component is defined. -/
def is3D (v : Vector K) : Bool := v.z.isSome

/-- The module-level constant `ZERO = { x: 0, y: 0, z: 0 }`. -/
def ZERO : Vector K := ⟨0, 0, some 0⟩

/-- The `cloneOf(vector) = Object.assign({}, vector)`: a shallow copy.  At the
value level a copy is the value itself; the store level allocates. -/
def cloneOf (v : Vector K) : Vector K := v

/-- The `toArray(vector)`: `[x, y]`, with `z` pushed when the vector is 3D. -/
def toArray (v : Vector K) : List K :=
  match v.z with
  | some vz => [v.x, v.y, vz]
  | none => [v.x, v.y]

/-- The `dotOf(a, b)`: three products when `is3D(a) && is3D(b)`, otherwise the
two-dimensional sum (the mixed case silently drops the z components). -/
def dotOf (a b : Vector K) : K :=
  match a.z, b.z with
  | some az, some bz => a.x * b.x + a.y * b.y + az * bz
  | _, _ => a.x * b.x + a.y * b.y

/-- The `radiusOf(vector) = Math.sqrt(dotOf(vector, vector))`. -/
def radiusOf (sqrtFn : K → K) (v : Vector K) : K := sqrtFn (dotOf v v)

/-- The `multiplyOn(vector, coefficient)`: every present component is multiplied
by the coefficient (in place in the source). -/
def multiplyOn (v : Vector K) (k : K) : Vector K :=
  ⟨v.x * k, v.y * k, v.z.map (fun vz => vz * k)⟩

/-- The `addOn(vector, append)`: adds `append.x || 0`, `append.y || 0`, and, when
`vector` is 3D, `append.z || 0` (an absent `z` contributes `0`, which is what
`|| 0` does to `undefined`; on field elements `t || 0` is `t`). -/
def addOn (v a : Vector K) : Vector K :=
  ⟨v.x + a.x, v.y + a.y, v.z.map (fun vz => vz + a.z.getD 0)⟩

/-- The `substractOn(vector, append)`: subtracts componentwise; the z component is
touched only when both operands are 3D. -/
def substractOn (v a : Vector K) : Vector K :=
  ⟨v.x - a.x, v.y - a.y,
    match v.z, a.z with
    | some vz, some az => some (vz - az)
    | some vz, none => some vz
    | none, _ => none⟩

/-- The `unitization(vector)`: a new vector with each present component divided by
`radiusOf(vector)` (the radius is computed once). -/
def unitization (sqrtFn : K → K) (v : Vector K) : Vector K :=
  let r := radiusOf sqrtFn v
  ⟨v.x / r, v.y / r, v.z.map (fun vz => vz / r)⟩

/-- The `decomposeOnAxis(vector, axis) = dotOf(vector, axis) / dotOf(axis, axis)`. -/
def decomposeOnAxis (v axis : Vector K) : K := dotOf v axis / dotOf axis axis

/-- The `Basis3D`: a named triple of (3D) vectors. -/
structure Basis3D (K : Type) where
  xBasis : Vector K
  yBasis : Vector K
  zBasis : Vector K
  deriving DecidableEq

/-- The `decomposition(vector, basis)`: coordinates of `vector` along the basis
axes; the z coordinate is produced exactly when `vector` is 3D. -/
def decomposition (v : Vector K) (basis : Basis3D K) : Vector K :=
  ⟨decomposeOnAxis v basis.xBasis, decomposeOnAxis v basis.yBasis,
    match v.z with
    | some _ => some (decomposeOnAxis v basis.zBasis)
    | none => none⟩

/-- The `projection(vector, axis) = dotOf(vector, axis) / radiusOf(axis)`. -/
def projection (sqrtFn : K → K) (v axis : Vector K) : K :=
  dotOf v axis / radiusOf sqrtFn axis

/-- The `representationOf(vector, basis)`: the linear combination
`x = multiplyOn(cloneOf(xBasis), v.x)`, `y = multiplyOn(cloneOf(yBasis), v.y)`,
`result = addOn(x, y)`, and for a 3D `vector` a further
`addOn(x, multiplyOn(cloneOf(zBasis), v.z))`.  In the source that last call
mutates `x`, and `result` aliases `x`, so the z term ends up in the returned
vector; at the value level that aliasing is the composition below (the store
level `St.representationOf` models the aliasing itself). -/
def representationOf (v : Vector K) (basis : Basis3D K) : Vector K :=
  let x := multiplyOn (cloneOf basis.xBasis) v.x
  let y := multiplyOn (cloneOf basis.yBasis) v.y
  let result := addOn x y
  match v.z with
  | some vz => addOn result (multiplyOn (cloneOf basis.zBasis) vz)
  | none => result

/-- The `matrixMultiplication(a, b)`: `result[i][j] = Σ_k a[i][k] * b[k][j]` with
`i < a.length`, `j < b[0].length`, `k < a[i].length`.  Out-of-range access
(JavaScript `undefined`) is modelled by `getD` defaults, which are dead for
the well-shaped inputs every claim uses. -/
def matrixMultiplication (a b : List (List K)) : List (List K) :=
  (List.range a.length).map fun i =>
    (List.range (b.getD 0 []).length).map fun j =>
      ((List.range (a.getD i []).length).map fun k =>
        (a.getD i []).getD k 0 * (b.getD k []).getD j 0).sum

/-- The `Point(...row)` applied to a matrix row: a 3-element row yields a 3D
vector, a 2-element row a 2D one (the spread of a short row leaves `z`
undefined). -/
def pointOfRow (r : List K) : Vector K :=
  ⟨r.getD 0 0, r.getD 1 0, r.get? 2⟩

/-- The `basis3DFromMatrix(matrix)`: row `i` becomes the `i`-th basis vector. -/
def basis3DFromMatrix (m : List (List K)) : Basis3D K :=
  ⟨pointOfRow (m.getD 0 []), pointOfRow (m.getD 1 []), pointOfRow (m.getD 2 [])⟩

/-- The `matrixOfBasis3D(basis)`: each basis vector becomes one row. -/
def matrixOfBasis3D (basis : Basis3D K) : List (List K) :=
  [toArray basis.xBasis, toArray basis.yBasis, toArray basis.zBasis]

/-- The `rotateBasis3D(basis, rotation)`: convert both bases to matrices, multiply
`basis × rotation`, convert back. -/
def rotateBasis3D (basis rotation : Basis3D K) : Basis3D K :=
  basis3DFromMatrix
    (matrixMultiplication (matrixOfBasis3D basis) (matrixOfBasis3D rotation))

/-- The standard basis `{(1,0,0),(0,1,0),(0,0,1)}` used by the spec's
`rotateBasis(B, identityBasis) ≈ B` property. -/
def identityBasis : Basis3D K :=
  ⟨⟨1, 0, some 0⟩, ⟨0, 1, some 0⟩, ⟨0, 0, some 1⟩⟩

/-- The `CoordinateSystem`: a basis and an origin. -/
structure CoordinateSystem (K : Type) where
  basis : Basis3D K
  origin : Vector K
  deriving DecidableEq

/-- The `ProjectionPlane`: origin and two in-plane direction vectors. -/
structure ProjectionPlane (K : Type) where
  origin : Vector K
  xBasis : Vector K
  yBasis : Vector K
  deriving DecidableEq

/-- The `Line<TVector>`: a segment with an optional display style (the source's
`end` field is spelled `endp`). -/
structure Line (V : Type) where
  start : V
  endp : V
  style : Option String
  deriving DecidableEq

/-- The `planeProjection(point, plane)`: each screen coordinate is the signed
projection of `substractOn(cloneOf(point), plane.origin)` on the matching
plane axis. -/
def planeProjection (sqrtFn : K → K) (point : Vector K)
    (plane : ProjectionPlane K) : Vector K :=
  ⟨projection sqrtFn (substractOn (cloneOf point) plane.origin) plane.xBasis,
    projection sqrtFn (substractOn (cloneOf point) plane.origin) plane.yBasis,
    none⟩

/-- The `visualPlaneOf(c)` (first copy, line 443): the plane origin decomposes
`substractOn(cloneOf(ZERO), c.origin)`, the axes decompose the absolute unit
vectors `(1,0,0)` and `(0,1,0)`, all in `c.basis`. -/
def visualPlaneOf (c : CoordinateSystem K) : ProjectionPlane K :=
  ⟨decomposition (substractOn (cloneOf ZERO) c.origin) c.basis,
    decomposition ⟨1, 0, some 0⟩ c.basis,
    decomposition ⟨0, 1, some 0⟩ c.basis⟩

/-- The `visualPlaneOf(c)` (second duplicated copy, line 885): identical except
the origin is negated as `multiplyOn(cloneOf(c.origin), -1)`. -/
def visualPlaneOfSecond (c : CoordinateSystem K) : ProjectionPlane K :=
  ⟨decomposition (multiplyOn (cloneOf c.origin) (-1)) c.basis,
    decomposition ⟨1, 0, some 0⟩ c.basis,
    decomposition ⟨0, 1, some 0⟩ c.basis⟩

/-- The `screenPositionOf(c, position)`:
`addOn(addOn(multiplyOn(unitization(plane.xBasis), x),
multiplyOn(unitization(plane.yBasis), y)), plane.origin)` over the plane
`visualPlaneOf(c)`. -/
def screenPositionOf (sqrtFn : K → K) (c : CoordinateSystem K)
    (position : Vector K) : Vector K :=
  let plane := visualPlaneOf c
  addOn
    (addOn (multiplyOn (unitization sqrtFn plane.xBasis) position.x)
      (multiplyOn (unitization sqrtFn plane.yBasis) position.y))
    plane.origin

/-- The `projectLine(line, plane)`: projects both endpoints.  The returned object
literal has no `style` property, so the result's style is `undefined`
(`none`) whatever the input's style was. -/
def projectLine (sqrtFn : K → K) (line : Line (Vector K))
    (plane : ProjectionPlane K) : Line (Vector K) :=
  ⟨planeProjection sqrtFn line.start plane,
    planeProjection sqrtFn line.endp plane,
    none⟩

end Core

namespace St

/-!
Store-level semantics.  A `Store` is a bump allocator of vector cells: `next`
is the first unallocated address and `mem` the contents.  Each source function
that mutates or allocates objects is rendered in explicit state-passing style;
read-only arithmetic reuses the value-level functions on the cell contents.
-/

variable {K : Type} [LinearOrderedField K]

/-- The mutable heap of vector objects: a bump allocator. -/
structure Store (K : Type) where
  next : ℕ
  mem : ℕ → Matrix3d.Vector K

/-- Read the vector object at an address. -/
def Store.read (h : Store K) (a : ℕ) : Matrix3d.Vector K := h.mem a

/-- Overwrite the vector object at an address (an in-place mutation). -/
def Store.write (h : Store K) (a : ℕ) (v : Matrix3d.Vector K) : Store K :=
  ⟨h.next, fun b => if b = a then v else h.mem b⟩

/-- Allocate a fresh object holding `v`; returns its address. -/
def Store.alloc (h : Store K) (v : Matrix3d.Vector K) : ℕ × Store K :=
  (h.next, ⟨h.next + 1, fun b => if b = h.next then v else h.mem b⟩)

/-- The `cloneOf(vector)`: allocates a shallow copy of the object at `a`. -/
def cloneOf (h : Store K) (a : ℕ) : ℕ × Store K := h.alloc (h.read a)

/-- The `multiplyOn(vector, coefficient)`: mutates the object at `a` in place and
returns the same address. -/
def multiplyOn (h : Store K) (a : ℕ) (k : K) : ℕ × Store K :=
  (a, h.write a (Matrix3d.multiplyOn (h.read a) k))

/-- The `addOn(vector, append)`: mutates the object at `a` in place using the
object at `b`, returning `a` itself. -/
def addOn (h : Store K) (a b : ℕ) : ℕ × Store K :=
  (a, h.write a (Matrix3d.addOn (h.read a) (h.read b)))

/-- The `substractOn(vector, append)`: mutates the object at `a` in place. -/
def substractOn (h : Store K) (a b : ℕ) : ℕ × Store K :=
  (a, h.write a (Matrix3d.substractOn (h.read a) (h.read b)))

/-- The `unitization(vector)`: reads `a` and allocates the fresh result object. -/
def unitization (sqrtFn : K → K) (h : Store K) (a : ℕ) : ℕ × Store K :=
  h.alloc (Matrix3d.unitization sqrtFn (h.read a))

/-- The `decomposition(vector, basis)`: reads the three basis cells and allocates
the fresh result object (`v` is passed by value: the call sites pass either a
just-built literal or a freshly mutated clone, and `decomposition` only reads
it). -/
def decomposition (h : Store K) (v : Matrix3d.Vector K) (bx bb bz : ℕ) :
    ℕ × Store K :=
  h.alloc (Matrix3d.decomposition v ⟨h.read bx, h.read bb, h.read bz⟩)

/-- The `representationOf(vector, basis)` with the source's mutation sequence:
clone/scale the x and y basis vectors, `result = addOn(x, y)` (so `result`
aliases `x`), then for a 3D `vector` clone/scale the z basis vector and
`addOn(x, z)` — mutating the object `result` aliases — and return `result`'s
address. -/
def representationOf (h0 : Store K) (v : Matrix3d.Vector K) (bx bb bz : ℕ) :
    ℕ × Store K :=
  let p1 := cloneOf h0 bx
  let p2 := multiplyOn p1.2 p1.1 v.x
  let p3 := cloneOf p2.2 bb
  let p4 := multiplyOn p3.2 p3.1 v.y
  let p5 := addOn p4.2 p2.1 p4.1
  match v.z with
  | some vz =>
    let p6 := cloneOf p5.2 bz
    let p7 := multiplyOn p6.2 p6.1 vz
    let p8 := addOn p7.2 p2.1 p7.1
    (p5.1, p8.2)
  | none => (p5.1, p5.2)

/-- A projection plane whose three vectors live in the store. -/
structure PlaneRef where
  origin : ℕ
  xBasis : ℕ
  yBasis : ℕ

/-- A coordinate system whose origin and basis vectors live in the store. -/
structure CoordRef where
  origin : ℕ
  xB : ℕ
  yB : ℕ
  zB : ℕ

/-- The `planeProjection(point, plane)`: for each screen coordinate the source
clones `point`, subtracts `plane.origin` in place on the clone, and projects
on the matching plane axis; the 2D result object is returned by value. -/
def planeProjection (sqrtFn : K → K) (h0 : Store K) (point : ℕ)
    (plane : PlaneRef) : Matrix3d.Vector K × Store K :=
  let p1 := cloneOf h0 point
  let p2 := substractOn p1.2 p1.1 plane.origin
  let rx := Matrix3d.projection sqrtFn (p2.2.read p2.1) (p2.2.read plane.xBasis)
  let p3 := cloneOf p2.2 point
  let p4 := substractOn p3.2 p3.1 plane.origin
  let ry := Matrix3d.projection sqrtFn (p4.2.read p4.1) (p4.2.read plane.yBasis)
  (⟨rx, ry, none⟩, p4.2)

/-- The `visualPlaneOf(c)`: clones the shared `ZERO` constant (an allocation of
its value), negates it in place by subtracting `c.origin`, and decomposes it
and the two absolute unit vectors in `c.basis`, allocating the three result
objects. -/
def visualPlaneOf (h0 : Store K) (c : CoordRef) : PlaneRef × Store K :=
  let p1 := h0.alloc (Matrix3d.ZERO : Matrix3d.Vector K)
  let p2 := substractOn p1.2 p1.1 c.origin
  let p3 := decomposition p2.2 (p2.2.read p2.1) c.xB c.yB c.zB
  let p4 := decomposition p3.2 ⟨1, 0, some 0⟩ c.xB c.yB c.zB
  let p5 := decomposition p4.2 ⟨0, 1, some 0⟩ c.xB c.yB c.zB
  (⟨p3.1, p4.1, p5.1⟩, p5.2)

/-- The `screenPositionOf(c, position)`: derives the plane, unitizes its axes
(fresh objects), scales them in place by the screen offsets, and accumulates
with two in-place `addOn`s, the second reading `plane.origin`. -/
def screenPositionOf (sqrtFn : K → K) (h0 : Store K) (c : CoordRef)
    (position : Matrix3d.Vector K) : ℕ × Store K :=
  let pl := visualPlaneOf h0 c
  let u1 := unitization sqrtFn pl.2 pl.1.xBasis
  let m1 := multiplyOn u1.2 u1.1 position.x
  let u2 := unitization sqrtFn m1.2 pl.1.yBasis
  let m2 := multiplyOn u2.2 u2.1 position.y
  let a1 := addOn m2.2 m1.1 m2.1
  let a2 := addOn a1.2 a1.1 pl.1.origin
  (a2.1, a2.2)

/-- The `Ext h0 h`: the store `h` is reachable from `h0` without touching any
cell that was already allocated in `h0` — the frame property the projection
pipeline maintains for its caller's objects. -/
def Ext (h0 h : Store K) : Prop :=
  h0.next ≤ h.next ∧ ∀ a, a < h0.next → h.mem a = h0.mem a

end St

/-- A small concrete store over `ℚ` used to evaluate the store-level theorems
on explicit input: three allocated cells holding an orthogonal basis. -/
def wStore : St.Store ℚ :=
  ⟨3, fun a =>
    if a = 0 then ⟨1, 0, some 0⟩
    else if a = 1 then ⟨0, 2, some 0⟩
    else ⟨0, 0, some 3⟩⟩

namespace JS

/-!
JavaScript number semantics for the claims whose content is the propagation
of IEEE special values: a number is `NaN`, `±Infinity`, or a finite value in
`K` (rounding is not modelled).  Only the operations reached by
`unitization` are needed: `+`, `*`, `/` and `Math.sqrt`.
-/

inductive JNum (K : Type) where
  | nan : JNum K
  | inf : JNum K
  | ninf : JNum K
  | num : K → JNum K
  deriving DecidableEq

variable {K : Type} [LinearOrderedField K]

open JNum

/-- IEEE addition on `JNum` (no rounding). -/
def jadd : JNum K → JNum K → JNum K
  | nan, _ => nan
  | _, nan => nan
  | inf, ninf => nan
  | ninf, inf => nan
  | inf, _ => inf
  | _, inf => inf
  | ninf, _ => ninf
  | _, ninf => ninf
  | num a, num b => num (a + b)

/-- IEEE multiplication on `JNum` (no rounding). -/
def jmul : JNum K → JNum K → JNum K
  | nan, _ => nan
  | _, nan => nan
  | inf, inf => inf
  | inf, ninf => ninf
  | ninf, inf => ninf
  | ninf, ninf => inf
  | inf, num b => if b = 0 then nan else if 0 < b then inf else ninf
  | num a, inf => if a = 0 then nan else if 0 < a then inf else ninf
  | ninf, num b => if b = 0 then nan else if 0 < b then ninf else inf
  | num a, ninf => if a = 0 then nan else if 0 < a then ninf else inf
  | num a, num b => num (a * b)

/-- IEEE division on `JNum` (no rounding, no negative zero): `0/0 = NaN`,
`a/0 = ±Infinity` for finite nonzero `a`. -/
def jdiv : JNum K → JNum K → JNum K
  | nan, _ => nan
  | _, nan => nan
  | inf, inf => nan
  | inf, ninf => nan
  | ninf, inf => nan
  | ninf, ninf => nan
  | num _, inf => num 0
  | num _, ninf => num 0
  | inf, num b => if 0 ≤ b then inf else ninf
  | ninf, num b => if 0 ≤ b then ninf else inf
  | num a, num b =>
    if b = 0 then (if a = 0 then nan else if 0 < a then inf else ninf)
    else num (a / b)

/-- The `Math.sqrt` on `JNum`: `NaN` for negative inputs and `-Infinity`. -/
def jsqrt (sqrtFn : K → K) : JNum K → JNum K
  | nan => nan
  | inf => inf
  | ninf => nan
  | num a => if a < 0 then nan else num (sqrtFn a)

/-- A JavaScript-number vector: `x`, `y` always present, `z` on 3D vectors. -/
structure JVec (K : Type) where
  x : JNum K
  y : JNum K
  z : Option (JNum K)
  deriving DecidableEq

/-- The `dotOf` over JavaScript numbers, with the source's left-associated sum. -/
def dotOf (a b : JVec K) : JNum K :=
  match a.z, b.z with
  | some az, some bz => jadd (jadd (jmul a.x b.x) (jmul a.y b.y)) (jmul az bz)
  | _, _ => jadd (jmul a.x b.x) (jmul a.y b.y)

/-- The `radiusOf` over JavaScript numbers. -/
def radiusOf (sqrtFn : K → K) (v : JVec K) : JNum K := jsqrt sqrtFn (dotOf v v)

/-- The `unitization` over JavaScript numbers: the radius is computed once and
each present component is divided by it in a fresh vector. -/
def unitization (sqrtFn : K → K) (v : JVec K) : JVec K :=
  let r := radiusOf sqrtFn v
  ⟨jdiv v.x r, jdiv v.y r, v.z.map (fun vz => jdiv vz r)⟩

end JS

section Theorems

variable {K : Type} [LinearOrderedField K]

/-- The `matrixMultiplication` on explicit 3x3 matrices, computed. -/
theorem matrixMultiplication_three
    (a11 a12 a13 a21 a22 a23 a31 a32 a33 b11 b12 b13 b21 b22 b23 b31 b32 b33 : K) :
    matrixMultiplication [[a11, a12, a13], [a21, a22, a23], [a31, a32, a33]]
        [[b11, b12, b13], [b21, b22, b23], [b31, b32, b33]] =
      [[a11 * b11 + (a12 * b21 + (a13 * b31 + 0)),
        a11 * b12 + (a12 * b22 + (a13 * b32 + 0)),
        a11 * b13 + (a12 * b23 + (a13 * b33 + 0))],
       [a21 * b11 + (a22 * b21 + (a23 * b31 + 0)),
        a21 * b12 + (a22 * b22 + (a23 * b32 + 0)),
        a21 * b13 + (a22 * b23 + (a23 * b33 + 0))],
       [a31 * b11 + (a32 * b21 + (a33 * b31 + 0)),
        a31 * b12 + (a32 * b22 + (a33 * b32 + 0)),
        a31 * b13 + (a32 * b23 + (a33 * b33 + 0))]] := rfl

/-- The `basis3DFromMatrix` on an explicit 3x3 matrix, computed. -/
theorem basis3DFromMatrix_three (m11 m12 m13 m21 m22 m23 m31 m32 m33 : K) :
    basis3DFromMatrix [[m11, m12, m13], [m21, m22, m23], [m31, m32, m33]] =
      ⟨⟨m11, m12, some m13⟩, ⟨m21, m22, some m23⟩, ⟨m31, m32, some m33⟩⟩ := rfl

/-- C5: `dotOf` is the three-term product sum when both operands are 3D and
silently degrades to the two-term sum when either operand is 2D. -/
theorem c5_dotOf_dimension_cases (a1 a2 a3 b1 b2 b3 : K) :
    dotOf ⟨a1, a2, some a3⟩ ⟨b1, b2, some b3⟩ = a1 * b1 + a2 * b2 + a3 * b3 ∧
    dotOf ⟨a1, a2, none⟩ ⟨b1, b2, some b3⟩ = a1 * b1 + a2 * b2 ∧
    dotOf ⟨a1, a2, some a3⟩ ⟨b1, b2, none⟩ = a1 * b1 + a2 * b2 ∧
    dotOf (⟨a1, a2, none⟩ : Vector K) ⟨b1, b2, none⟩ = a1 * b1 + a2 * b2 :=
  ⟨rfl, rfl, rfl, rfl⟩

/-- C8: `matrixOfBasis3D` after `basis3DFromMatrix` returns every 3x3 matrix
exactly, row for row. -/
theorem c8_matrix_basis_roundtrip (m11 m12 m13 m21 m22 m23 m31 m32 m33 : K) :
    matrixOfBasis3D
        (basis3DFromMatrix [[m11, m12, m13], [m21, m22, m23], [m31, m32, m33]]) =
      [[m11, m12, m13], [m21, m22, m23], [m31, m32, m33]] := rfl

/-- C9: `rotateBasis3D` composes as `matrixOfBasis3D basis × matrixOfBasis3D
rotation` and rotating any 3D basis by the standard identity basis returns the
basis unchanged. -/
theorem c9_rotate_by_identity (b11 b12 b13 b21 b22 b23 b31 b32 b33 : K) :
    (∀ rotation : Basis3D K,
        rotateBasis3D ⟨⟨b11, b12, some b13⟩, ⟨b21, b22, some b23⟩,
            ⟨b31, b32, some b33⟩⟩ rotation =
          basis3DFromMatrix
            (matrixMultiplication
              (matrixOfBasis3D ⟨⟨b11, b12, some b13⟩, ⟨b21, b22, some b23⟩,
                ⟨b31, b32, some b33⟩⟩)
              (matrixOfBasis3D rotation))) ∧
    rotateBasis3D ⟨⟨b11, b12, some b13⟩, ⟨b21, b22, some b23⟩,
        ⟨b31, b32, some b33⟩⟩ (identityBasis : Basis3D K) =
      ⟨⟨b11, b12, some b13⟩, ⟨b21, b22, some b23⟩, ⟨b31, b32, some b33⟩⟩ := by
  refine ⟨fun rotation => rfl, ?_⟩
  show basis3DFromMatrix
      (matrixMultiplication [[b11, b12, b13], [b21, b22, b23], [b31, b32, b33]]
        [[1, 0, 0], [0, 1, 0], [0, 0, 1]]) = _
  rw [matrixMultiplication_three, basis3DFromMatrix_three]
  simp [Basis3D.mk.injEq, Vector.mk.injEq]

/-- C10: the two duplicated copies of `visualPlaneOf` agree on every
coordinate system: negating the origin as `ZERO - origin` and as
`origin * (-1)` produces the same plane. -/
theorem c10_visualPlaneOf_copies_agree (basis : Basis3D K) (o1 o2 o3 : K) :
    visualPlaneOf ⟨basis, ⟨o1, o2, some o3⟩⟩ =
      visualPlaneOfSecond ⟨basis, ⟨o1, o2, some o3⟩⟩ := by
  have harg : substractOn (cloneOf (ZERO : Vector K)) ⟨o1, o2, some o3⟩ =
      multiplyOn (cloneOf ⟨o1, o2, some o3⟩) (-1) := by
    show (⟨0 - o1, 0 - o2, some (0 - o3)⟩ : Vector K) =
      ⟨o1 * (-1), o2 * (-1), some (o3 * (-1))⟩
    simp only [Vector.mk.injEq, Option.some.injEq]
    refine ⟨by ring, by ring, by ring⟩
  simp only [visualPlaneOf, visualPlaneOfSecond]
  rw [harg]

/-- C3 counterexample: `projectLine` drops the style tag, so a styled input
segment does not keep its style. -/
theorem c3_style_counterexample :
    (projectLine (fun q : ℚ => q)
        ⟨⟨0, 0, some 0⟩, ⟨1, 1, some 1⟩, some "red"⟩
        ⟨⟨0, 0, some 0⟩, ⟨1, 0, some 0⟩, ⟨0, 1, some 0⟩⟩).style ≠
      (⟨⟨0, 0, some 0⟩, ⟨1, 1, some 1⟩, some "red"⟩ :
        Line (Vector ℚ)).style := by
  decide

/-- C3 (amended): `projectLine` maps both endpoints through `planeProjection`
and its result carries no style (`none`), whatever the input's style was. -/
theorem c3_projectLine_amended (sqrtFn : K → K) (line : Line (Vector K))
    (plane : ProjectionPlane K) :
    (projectLine sqrtFn line plane).start =
        planeProjection sqrtFn line.start plane ∧
    (projectLine sqrtFn line plane).endp =
        planeProjection sqrtFn line.endp plane ∧
    (projectLine sqrtFn line plane).style = none :=
  ⟨rfl, rfl, rfl⟩

/-- Cancellation core for the orthogonal-basis reconstruction identity, over
opaque atoms: `N` is the squared norm of the cross product of the first two
basis rows, `Q`/`P` the dot products of the third row and of the target with
that cross product, and `h4` the Cramer-style expansion of the target. -/
theorem recon_atomic
    (A C E Dp Dq Dr N P Q n1 n2 n3 p1 q1 r1 r2 r3 v1 v2 v3 : K)
    (h1 : N = Dp * Dq)
    (h2a : r1 * N = Q * n1) (h2b : r2 * N = Q * n2) (h2c : r3 * N = Q * n3)
    (h4 : v1 * N = A * Dq * p1 + C * Dp * q1 + P * n1)
    (hQ : r1 * n1 + r2 * n2 + r3 * n3 = Q)
    (hP : v1 * n1 + v2 * n2 + v3 * n3 = P)
    (hE : v1 * r1 + v2 * r2 + v3 * r3 = E)
    (hDr : r1 * r1 + r2 * r2 + r3 * r3 = Dr)
    (hN : N ≠ 0) :
    A * Dq * Dr * p1 + C * Dp * Dr * q1 + E * Dp * Dq * r1 =
      v1 * (Dp * Dq * Dr) := by
  have h3 : Dr * N = Q ^ 2 := by
    linear_combination r1 * h2a + r2 * h2b + r3 * h2c - N * hDr + Q * hQ
  have h5 : E * N = Q * P := by
    linear_combination v1 * h2a + v2 * h2b + v3 * h2c - N * hE + Q * hP
  have hbig : N * (A * Dq * Dr * p1 + C * Dp * Dr * q1 + E * Dp * Dq * r1) =
      N * (v1 * (Dp * Dq * Dr)) := by
    linear_combination (E * N) * h2a + (Q * n1) * h5 - P * n1 * h3 -
      (E * r1 * N - v1 * Dr * N) * h1 - Dr * N * h4
  exact mul_left_cancel₀ hN hbig

/-- The scalar reconstruction identity for one coordinate: for pairwise
orthogonal rows `p`, `q`, `r` with nonzero squared norms the denominators
cleared linear combination of scalar projections returns the target
coordinate. -/
theorem recon_component (p1 p2 p3 q1 q2 q3 r1 r2 r3 v1 v2 v3 : K)
    (hpq : p1 * q1 + p2 * q2 + p3 * q3 = 0)
    (hpr : p1 * r1 + p2 * r2 + p3 * r3 = 0)
    (hqr : q1 * r1 + q2 * r2 + q3 * r3 = 0)
    (hdp : p1 * p1 + p2 * p2 + p3 * p3 ≠ 0)
    (hdq : q1 * q1 + q2 * q2 + q3 * q3 ≠ 0) :
    (v1 * p1 + v2 * p2 + v3 * p3) * (q1 * q1 + q2 * q2 + q3 * q3) *
        (r1 * r1 + r2 * r2 + r3 * r3) * p1 +
      (v1 * q1 + v2 * q2 + v3 * q3) * (p1 * p1 + p2 * p2 + p3 * p3) *
        (r1 * r1 + r2 * r2 + r3 * r3) * q1 +
      (v1 * r1 + v2 * r2 + v3 * r3) * (p1 * p1 + p2 * p2 + p3 * p3) *
        (q1 * q1 + q2 * q2 + q3 * q3) * r1 =
      v1 * ((p1 * p1 + p2 * p2 + p3 * p3) * (q1 * q1 + q2 * q2 + q3 * q3) *
        (r1 * r1 + r2 * r2 + r3 * r3)) := by
  have h1 : (p2 * q3 - p3 * q2) * (p2 * q3 - p3 * q2) +
      (p3 * q1 - p1 * q3) * (p3 * q1 - p1 * q3) +
      (p1 * q2 - p2 * q1) * (p1 * q2 - p2 * q1) =
      (p1 * p1 + p2 * p2 + p3 * p3) * (q1 * q1 + q2 * q2 + q3 * q3) := by
    linear_combination (-(p1 * q1 + p2 * q2 + p3 * q3)) * hpq
  have hN : (p2 * q3 - p3 * q2) * (p2 * q3 - p3 * q2) +
      (p3 * q1 - p1 * q3) * (p3 * q1 - p1 * q3) +
      (p1 * q2 - p2 * q1) * (p1 * q2 - p2 * q1) ≠ 0 := by
    rw [h1]; exact mul_ne_zero hdp hdq
  have h2a : r1 * ((p2 * q3 - p3 * q2) * (p2 * q3 - p3 * q2) +
      (p3 * q1 - p1 * q3) * (p3 * q1 - p1 * q3) +
      (p1 * q2 - p2 * q1) * (p1 * q2 - p2 * q1)) =
      (r1 * (p2 * q3 - p3 * q2) + r2 * (p3 * q1 - p1 * q3) +
        r3 * (p1 * q2 - p2 * q1)) * (p2 * q3 - p3 * q2) := by
    linear_combination
      ((q1 * q1 + q2 * q2 + q3 * q3) * p1 - (p1 * q1 + p2 * q2 + p3 * q3) * q1) * hpr +
      ((p1 * p1 + p2 * p2 + p3 * p3) * q1 - (p1 * q1 + p2 * q2 + p3 * q3) * p1) * hqr
  have h2b : r2 * ((p2 * q3 - p3 * q2) * (p2 * q3 - p3 * q2) +
      (p3 * q1 - p1 * q3) * (p3 * q1 - p1 * q3) +
      (p1 * q2 - p2 * q1) * (p1 * q2 - p2 * q1)) =
      (r1 * (p2 * q3 - p3 * q2) + r2 * (p3 * q1 - p1 * q3) +
        r3 * (p1 * q2 - p2 * q1)) * (p3 * q1 - p1 * q3) := by
    linear_combination
      ((q1 * q1 + q2 * q2 + q3 * q3) * p2 - (p1 * q1 + p2 * q2 + p3 * q3) * q2) * hpr +
      ((p1 * p1 + p2 * p2 + p3 * p3) * q2 - (p1 * q1 + p2 * q2 + p3 * q3) * p2) * hqr
  have h2c : r3 * ((p2 * q3 - p3 * q2) * (p2 * q3 - p3 * q2) +
      (p3 * q1 - p1 * q3) * (p3 * q1 - p1 * q3) +
      (p1 * q2 - p2 * q1) * (p1 * q2 - p2 * q1)) =
      (r1 * (p2 * q3 - p3 * q2) + r2 * (p3 * q1 - p1 * q3) +
        r3 * (p1 * q2 - p2 * q1)) * (p1 * q2 - p2 * q1) := by
    linear_combination
      ((q1 * q1 + q2 * q2 + q3 * q3) * p3 - (p1 * q1 + p2 * q2 + p3 * q3) * q3) * hpr +
      ((p1 * p1 + p2 * p2 + p3 * p3) * q3 - (p1 * q1 + p2 * q2 + p3 * q3) * p3) * hqr
  have h4 : v1 * ((p2 * q3 - p3 * q2) * (p2 * q3 - p3 * q2) +
      (p3 * q1 - p1 * q3) * (p3 * q1 - p1 * q3) +
      (p1 * q2 - p2 * q1) * (p1 * q2 - p2 * q1)) =
      (v1 * p1 + v2 * p2 + v3 * p3) * (q1 * q1 + q2 * q2 + q3 * q3) * p1 +
      (v1 * q1 + v2 * q2 + v3 * q3) * (p1 * p1 + p2 * p2 + p3 * p3) * q1 +
      (v1 * (p2 * q3 - p3 * q2) + v2 * (p3 * q1 - p1 * q3) +
        v3 * (p1 * q2 - p2 * q1)) * (p2 * q3 - p3 * q2) := by
    linear_combination
      (-((v1 * q1 + v2 * q2 + v3 * q3) * p1 + (v1 * p1 + v2 * p2 + v3 * p3) * q1)) * hpq
  exact recon_atomic
    (v1 * p1 + v2 * p2 + v3 * p3) (v1 * q1 + v2 * q2 + v3 * q3)
    (v1 * r1 + v2 * r2 + v3 * r3)
    (p1 * p1 + p2 * p2 + p3 * p3) (q1 * q1 + q2 * q2 + q3 * q3)
    (r1 * r1 + r2 * r2 + r3 * r3)
    ((p2 * q3 - p3 * q2) * (p2 * q3 - p3 * q2) +
      (p3 * q1 - p1 * q3) * (p3 * q1 - p1 * q3) +
      (p1 * q2 - p2 * q1) * (p1 * q2 - p2 * q1))
    (v1 * (p2 * q3 - p3 * q2) + v2 * (p3 * q1 - p1 * q3) +
      v3 * (p1 * q2 - p2 * q1))
    (r1 * (p2 * q3 - p3 * q2) + r2 * (p3 * q1 - p1 * q3) +
      r3 * (p1 * q2 - p2 * q1))
    (p2 * q3 - p3 * q2) (p3 * q1 - p1 * q3) (p1 * q2 - p2 * q1)
    p1 q1 r1 r2 r3 v1 v2 v3
    h1 h2a h2b h2c h4 (by ring) (by ring) (by ring) (by ring) hN

/-- A nonzero 3D vector has nonzero self dot product. -/
theorem self_dot_ne_zero (p1 p2 p3 : K)
    (hp : (⟨p1, p2, some p3⟩ : Vector K) ≠ ZERO) :
    p1 * p1 + p2 * p2 + p3 * p3 ≠ 0 := by
  intro h
  apply hp
  have e1 : p1 = 0 := mul_self_eq_zero.mp (by
    nlinarith [mul_self_nonneg p1, mul_self_nonneg p2, mul_self_nonneg p3])
  have e2 : p2 = 0 := mul_self_eq_zero.mp (by
    nlinarith [mul_self_nonneg p1, mul_self_nonneg p2, mul_self_nonneg p3])
  have e3 : p3 = 0 := mul_self_eq_zero.mp (by
    nlinarith [mul_self_nonneg p1, mul_self_nonneg p2, mul_self_nonneg p3])
  simp [ZERO, e1, e2, e3]

/-- C1: decomposing a 3D vector in a basis of three mutually orthogonal
nonzero vectors and reconstructing with `representationOf` recovers the
vector. -/
theorem c1_decompose_represent_roundtrip (p1 p2 p3 q1 q2 q3 r1 r2 r3 v1 v2 v3 : K)
    (hpq : dotOf ⟨p1, p2, some p3⟩ ⟨q1, q2, some q3⟩ = 0)
    (hpr : dotOf ⟨p1, p2, some p3⟩ ⟨r1, r2, some r3⟩ = 0)
    (hqr : dotOf ⟨q1, q2, some q3⟩ ⟨r1, r2, some r3⟩ = 0)
    (hp : (⟨p1, p2, some p3⟩ : Vector K) ≠ ZERO)
    (hq : (⟨q1, q2, some q3⟩ : Vector K) ≠ ZERO)
    (hr : (⟨r1, r2, some r3⟩ : Vector K) ≠ ZERO) :
    representationOf
        (decomposition ⟨v1, v2, some v3⟩
          ⟨⟨p1, p2, some p3⟩, ⟨q1, q2, some q3⟩, ⟨r1, r2, some r3⟩⟩)
        ⟨⟨p1, p2, some p3⟩, ⟨q1, q2, some q3⟩, ⟨r1, r2, some r3⟩⟩ =
      ⟨v1, v2, some v3⟩ := by
  have hdp := self_dot_ne_zero p1 p2 p3 hp
  have hdq := self_dot_ne_zero q1 q2 q3 hq
  have hdr := self_dot_ne_zero r1 r2 r3 hr
  simp only [dotOf] at hpq hpr hqr
  simp only [representationOf, decomposition, decomposeOnAxis, dotOf,
    multiplyOn, addOn, substractOn, cloneOf, Option.map_some', Option.getD_some,
    Vector.mk.injEq, Option.some.injEq]
  refine ⟨?_, ?_, ?_⟩
  · field_simp
    linear_combination
      recon_component p1 p2 p3 q1 q2 q3 r1 r2 r3 v1 v2 v3 hpq hpr hqr hdp hdq
  · field_simp
    linear_combination
      recon_component p2 p3 p1 q2 q3 q1 r2 r3 r1 v2 v3 v1
        (by linear_combination hpq) (by linear_combination hpr)
        (by linear_combination hqr)
        (fun h => hdp (by linear_combination h))
        (fun h => hdq (by linear_combination h))
  · field_simp
    linear_combination
      recon_component p3 p1 p2 q3 q1 q2 r3 r1 r2 v3 v1 v2
        (by linear_combination hpq) (by linear_combination hpr)
        (by linear_combination hqr)
        (fun h => hdp (by linear_combination h))
        (fun h => hdq (by linear_combination h))

/-- C2: at the store level, `representationOf` returns (at the address it
yields — the one aliasing the scaled x clone) the linear combination
`c.x * xBasis + c.y * yBasis + c.z * zBasis`, including the z term added onto
the aliased local, and it leaves the three basis cells untouched. -/
theorem c2_representationOf_store (h0 : St.Store K) (bx bb bz : ℕ)
    (v1 v2 v3 x1 x2 x3 y1 y2 y3 z1 z2 z3 : K)
    (hbx : bx < h0.next) (hbb : bb < h0.next) (hbz : bz < h0.next)
    (hmx : h0.mem bx = ⟨x1, x2, some x3⟩)
    (hmy : h0.mem bb = ⟨y1, y2, some y3⟩)
    (hmz : h0.mem bz = ⟨z1, z2, some z3⟩) :
    (St.representationOf h0 ⟨v1, v2, some v3⟩ bx bb bz).2.mem
        (St.representationOf h0 ⟨v1, v2, some v3⟩ bx bb bz).1 =
      ⟨v1 * x1 + v2 * y1 + v3 * z1, v1 * x2 + v2 * y2 + v3 * z2,
        some (v1 * x3 + v2 * y3 + v3 * z3)⟩ ∧
    (St.representationOf h0 ⟨v1, v2, some v3⟩ bx bb bz).2.mem bx = h0.mem bx ∧
    (St.representationOf h0 ⟨v1, v2, some v3⟩ bx bb bz).2.mem bb = h0.mem bb ∧
    (St.representationOf h0 ⟨v1, v2, some v3⟩ bx bb bz).2.mem bz = h0.mem bz := by
  have dx0 : bx ≠ h0.next := Nat.ne_of_lt hbx
  have dx1 : bx ≠ h0.next + 1 := by omega
  have dx2 : bx ≠ h0.next + 2 := by omega
  have dy0 : bb ≠ h0.next := Nat.ne_of_lt hbb
  have dy1 : bb ≠ h0.next + 1 := by omega
  have dy2 : bb ≠ h0.next + 2 := by omega
  have dz0 : bz ≠ h0.next := Nat.ne_of_lt hbz
  have dz1 : bz ≠ h0.next + 1 := by omega
  have dz2 : bz ≠ h0.next + 2 := by omega
  have e01 : h0.next ≠ h0.next + 1 := by omega
  have e02 : h0.next ≠ h0.next + 2 := by omega
  have e12 : h0.next + 1 ≠ h0.next + 2 := by omega
  simp only [St.representationOf, St.cloneOf, St.multiplyOn, St.addOn,
    St.Store.alloc, St.Store.write, St.Store.read]
  simp [dx0, dx1, dx2, dy0, dy1, dy2, dz0, dz1, dz2, e01, e02, e12,
    hmx, hmy, hmz, Matrix3d.multiplyOn, Matrix3d.addOn, Vector.mk.injEq]
  refine ⟨by ring, by ring, by ring⟩

/-- Every store extends itself. -/
theorem st_ext_refl (h0 : St.Store K) : St.Ext h0 h0 :=
  ⟨le_refl _, fun _ _ => rfl⟩

/-- Allocation touches no existing cell. -/
theorem st_ext_alloc {h0 h : St.Store K} (hx : St.Ext h0 h)
    (v : Vector K) :
    St.Ext h0 (h.alloc v).2 ∧ h0.next ≤ (h.alloc v).1 := by
  have hle := hx.1
  refine ⟨⟨by simp [St.Store.alloc]; omega, fun a ha => ?_⟩, hle⟩
  show (if a = h.next then v else h.mem a) = h0.mem a
  rw [if_neg (by omega)]
  exact hx.2 a ha

/-- Writing at an address at or above the old frontier touches no old cell. -/
theorem st_ext_write {h0 h : St.Store K} (hx : St.Ext h0 h) (a : ℕ)
    (v : Vector K) (ha : h0.next ≤ a) : St.Ext h0 (h.write a v) := by
  refine ⟨hx.1, fun b hb => ?_⟩
  show (if b = a then v else h.mem b) = h0.mem b
  rw [if_neg (by omega)]
  exact hx.2 b hb

/-- The `cloneOf` only allocates. -/
theorem st_cloneOf_ext {h0 h : St.Store K} (hx : St.Ext h0 h) (a : ℕ) :
    St.Ext h0 (St.cloneOf h a).2 ∧ h0.next ≤ (St.cloneOf h a).1 :=
  st_ext_alloc hx _

/-- The `unitization` only allocates. -/
theorem st_unitization_ext {h0 h : St.Store K} (hx : St.Ext h0 h)
    (sqrtFn : K → K) (a : ℕ) :
    St.Ext h0 (St.unitization sqrtFn h a).2 ∧
      h0.next ≤ (St.unitization sqrtFn h a).1 :=
  st_ext_alloc hx _

/-- The `decomposition` only allocates. -/
theorem st_decomposition_ext {h0 h : St.Store K} (hx : St.Ext h0 h)
    (v : Vector K) (bx bb bz : ℕ) :
    St.Ext h0 (St.decomposition h v bx bb bz).2 ∧
      h0.next ≤ (St.decomposition h v bx bb bz).1 :=
  st_ext_alloc hx _

/-- The `multiplyOn` writes only through its first argument. -/
theorem st_multiplyOn_ext {h0 h : St.Store K} (hx : St.Ext h0 h) (a : ℕ)
    (k : K) (ha : h0.next ≤ a) :
    St.Ext h0 (St.multiplyOn h a k).2 ∧ (St.multiplyOn h a k).1 = a :=
  ⟨st_ext_write hx a _ ha, rfl⟩

/-- The `addOn` writes only through its first argument. -/
theorem st_addOn_ext {h0 h : St.Store K} (hx : St.Ext h0 h) (a b : ℕ)
    (ha : h0.next ≤ a) :
    St.Ext h0 (St.addOn h a b).2 ∧ (St.addOn h a b).1 = a :=
  ⟨st_ext_write hx a _ ha, rfl⟩

/-- The `substractOn` writes only through its first argument. -/
theorem st_substractOn_ext {h0 h : St.Store K} (hx : St.Ext h0 h) (a b : ℕ)
    (ha : h0.next ≤ a) :
    St.Ext h0 (St.substractOn h a b).2 ∧ (St.substractOn h a b).1 = a :=
  ⟨st_ext_write hx a _ ha, rfl⟩

/-- The `planeProjection` leaves every pre-existing cell unchanged: it mutates
only the two clones of `point` it allocates itself. -/
theorem st_planeProjection_ext (sqrtFn : K → K) (h0 : St.Store K)
    (point : ℕ) (pl : St.PlaneRef) :
    St.Ext h0 (St.planeProjection sqrtFn h0 point pl).2 := by
  have h1 := st_cloneOf_ext (st_ext_refl h0) point
  have h2 := st_substractOn_ext h1.1 _ pl.origin h1.2
  have h3 := st_cloneOf_ext h2.1 point
  have h4 := st_substractOn_ext h3.1 _ pl.origin h3.2
  exact h4.1

/-- The `visualPlaneOf` leaves every pre-existing cell unchanged and returns
plane cells it allocated itself. -/
theorem st_visualPlaneOf_ext (h0 : St.Store K) (c : St.CoordRef) :
    St.Ext h0 (St.visualPlaneOf h0 c).2 ∧
      h0.next ≤ (St.visualPlaneOf h0 c).1.origin ∧
      h0.next ≤ (St.visualPlaneOf h0 c).1.xBasis ∧
      h0.next ≤ (St.visualPlaneOf h0 c).1.yBasis := by
  have h1 := st_ext_alloc (st_ext_refl h0) (ZERO : Vector K)
  have h2 := st_substractOn_ext h1.1 _ c.origin h1.2
  have h3 := st_decomposition_ext h2.1
    ((St.substractOn (h0.alloc (ZERO : Vector K)).2
      (h0.alloc (ZERO : Vector K)).1 c.origin).2.read
      (St.substractOn (h0.alloc (ZERO : Vector K)).2
        (h0.alloc (ZERO : Vector K)).1 c.origin).1) c.xB c.yB c.zB
  have h4 := st_decomposition_ext h3.1 ⟨1, 0, some 0⟩ c.xB c.yB c.zB
  have h5 := st_decomposition_ext h4.1 ⟨0, 1, some 0⟩ c.xB c.yB c.zB
  exact ⟨h5.1, h3.2, h4.2, h5.2⟩

/-- The `screenPositionOf` leaves every pre-existing cell unchanged: it mutates
only the fresh plane vectors and the fresh unitized axes. -/
theorem st_screenPositionOf_ext (sqrtFn : K → K) (h0 : St.Store K)
    (c : St.CoordRef) (pos : Vector K) :
    St.Ext h0 (St.screenPositionOf sqrtFn h0 c pos).2 := by
  have hpl := st_visualPlaneOf_ext h0 c
  have h1 := st_unitization_ext hpl.1 sqrtFn (St.visualPlaneOf h0 c).1.xBasis
  have h2 := st_multiplyOn_ext h1.1 _ pos.x h1.2
  have h3 := st_unitization_ext h2.1 sqrtFn (St.visualPlaneOf h0 c).1.yBasis
  have h4 := st_multiplyOn_ext h3.1 _ pos.y h3.2
  have h5 := st_addOn_ext h4.1 _
    (St.multiplyOn (St.unitization sqrtFn
      (St.multiplyOn (St.unitization sqrtFn (St.visualPlaneOf h0 c).2
        (St.visualPlaneOf h0 c).1.xBasis).2
        (St.unitization sqrtFn (St.visualPlaneOf h0 c).2
          (St.visualPlaneOf h0 c).1.xBasis).1 pos.x).2
      (St.visualPlaneOf h0 c).1.yBasis).2
      (St.unitization sqrtFn
        (St.multiplyOn (St.unitization sqrtFn (St.visualPlaneOf h0 c).2
          (St.visualPlaneOf h0 c).1.xBasis).2
          (St.unitization sqrtFn (St.visualPlaneOf h0 c).2
            (St.visualPlaneOf h0 c).1.xBasis).1 pos.x).2
        (St.visualPlaneOf h0 c).1.yBasis).1 pos.y).1 h1.2
  have h6 := st_addOn_ext h5.1 _ (St.visualPlaneOf h0 c).1.origin h1.2
  exact h6.1

/-- C6: `planeProjection`, `visualPlaneOf` and `screenPositionOf` never
mutate their arguments: the input point, the plane's cells and the
coordinate system's cells hold the same vectors after each call. -/
theorem c6_pipeline_no_mutation (sqrtFn : K → K) (h0 : St.Store K)
    (point : ℕ) (pl : St.PlaneRef) (c : St.CoordRef) (pos : Vector K)
    (hpoint : point < h0.next) (hpo : pl.origin < h0.next)
    (hpx : pl.xBasis < h0.next) (hpy : pl.yBasis < h0.next)
    (hco : c.origin < h0.next) (hcx : c.xB < h0.next)
    (hcy : c.yB < h0.next) (hcz : c.zB < h0.next) :
    ((St.planeProjection sqrtFn h0 point pl).2.mem point = h0.mem point ∧
      (St.planeProjection sqrtFn h0 point pl).2.mem pl.origin =
        h0.mem pl.origin ∧
      (St.planeProjection sqrtFn h0 point pl).2.mem pl.xBasis =
        h0.mem pl.xBasis ∧
      (St.planeProjection sqrtFn h0 point pl).2.mem pl.yBasis =
        h0.mem pl.yBasis) ∧
    ((St.visualPlaneOf h0 c).2.mem c.origin = h0.mem c.origin ∧
      (St.visualPlaneOf h0 c).2.mem c.xB = h0.mem c.xB ∧
      (St.visualPlaneOf h0 c).2.mem c.yB = h0.mem c.yB ∧
      (St.visualPlaneOf h0 c).2.mem c.zB = h0.mem c.zB) ∧
    ((St.screenPositionOf sqrtFn h0 c pos).2.mem c.origin = h0.mem c.origin ∧
      (St.screenPositionOf sqrtFn h0 c pos).2.mem c.xB = h0.mem c.xB ∧
      (St.screenPositionOf sqrtFn h0 c pos).2.mem c.yB = h0.mem c.yB ∧
      (St.screenPositionOf sqrtFn h0 c pos).2.mem c.zB = h0.mem c.zB) := by
  have hp := st_planeProjection_ext sqrtFn h0 point pl
  have hv := (st_visualPlaneOf_ext h0 c).1
  have hs := st_screenPositionOf_ext sqrtFn h0 c pos
  exact ⟨⟨hp.2 _ hpoint, hp.2 _ hpo, hp.2 _ hpx, hp.2 _ hpy⟩,
    ⟨hv.2 _ hco, hv.2 _ hcx, hv.2 _ hcy, hv.2 _ hcz⟩,
    ⟨hs.2 _ hco, hs.2 _ hcx, hs.2 _ hcy, hs.2 _ hcz⟩⟩

/-- C4: when the derived plane's basis vectors have nonzero radius, the screen
origin `(0, 0)` maps back to the projection plane's own origin. -/
theorem c4_screen_origin (sqrtFn : K → K) (c : CoordinateSystem K)
    (h1 : radiusOf sqrtFn (visualPlaneOf c).xBasis ≠ 0)
    (h2 : radiusOf sqrtFn (visualPlaneOf c).yBasis ≠ 0) :
    screenPositionOf sqrtFn c ⟨0, 0, none⟩ = (visualPlaneOf c).origin := by
  clear h1 h2
  obtain ⟨⟨⟨bx1, bx2, bxz⟩, ⟨by1, by2, byz⟩, ⟨bz1, bz2, bzz⟩⟩, ⟨o1, o2, oz⟩⟩ := c
  cases oz <;> cases bxz <;> cases byz <;> cases bzz <;>
    simp [screenPositionOf, visualPlaneOf, addOn, multiplyOn, unitization,
      radiusOf, decomposition, decomposeOnAxis, dotOf, substractOn, cloneOf,
      ZERO, projection]

/-- C7: over JavaScript numbers, `unitization` of a finite vector of
magnitude `0` has every present component `NaN` (each is a `0/0`), and for
positive magnitude `r` it divides every present component by `r`.  Stated for
both arities. -/
theorem c7_unitization_zero_nan (x y z : ℝ) :
    ((JS.radiusOf Real.sqrt ⟨.num x, .num y, some (.num z)⟩ = .num 0 →
        JS.unitization Real.sqrt ⟨.num x, .num y, some (.num z)⟩ =
          ⟨.nan, .nan, some .nan⟩) ∧
      ∀ r : ℝ,
        JS.radiusOf Real.sqrt ⟨.num x, .num y, some (.num z)⟩ = .num r →
        0 < r →
        JS.unitization Real.sqrt ⟨.num x, .num y, some (.num z)⟩ =
          ⟨.num (x / r), .num (y / r), some (.num (z / r))⟩) ∧
    ((JS.radiusOf Real.sqrt ⟨.num x, .num y, none⟩ = .num 0 →
        JS.unitization Real.sqrt ⟨.num x, .num y, none⟩ =
          ⟨.nan, .nan, none⟩) ∧
      ∀ r : ℝ,
        JS.radiusOf Real.sqrt ⟨.num x, .num y, none⟩ = .num r → 0 < r →
        JS.unitization Real.sqrt ⟨.num x, .num y, none⟩ =
          ⟨.num (x / r), .num (y / r), none⟩) := by
  have hS3 : ¬(x * x + y * y + z * z < 0) := by
    nlinarith [mul_self_nonneg x, mul_self_nonneg y, mul_self_nonneg z]
  have hS2 : ¬(x * x + y * y < 0) := by
    nlinarith [mul_self_nonneg x, mul_self_nonneg y]
  have hrad3 : JS.radiusOf Real.sqrt ⟨.num x, .num y, some (.num z)⟩ =
      .num (Real.sqrt (x * x + y * y + z * z)) := by
    show JS.jsqrt Real.sqrt (.num (x * x + y * y + z * z)) = _
    simp [JS.jsqrt, hS3]
  have hrad2 : JS.radiusOf Real.sqrt ⟨.num x, .num y, none⟩ =
      .num (Real.sqrt (x * x + y * y)) := by
    show JS.jsqrt Real.sqrt (.num (x * x + y * y)) = _
    simp [JS.jsqrt, hS2]
  refine ⟨⟨?_, ?_⟩, ?_, ?_⟩
  · intro h
    rw [hrad3] at h
    have hsq : Real.sqrt (x * x + y * y + z * z) = 0 := by
      simpa using h
    have hle : x * x + y * y + z * z ≤ 0 := Real.sqrt_eq_zero'.mp hsq
    have hx : x = 0 := mul_self_eq_zero.mp (by
      nlinarith [mul_self_nonneg x, mul_self_nonneg y, mul_self_nonneg z])
    have hy : y = 0 := mul_self_eq_zero.mp (by
      nlinarith [mul_self_nonneg x, mul_self_nonneg y, mul_self_nonneg z])
    have hz : z = 0 := mul_self_eq_zero.mp (by
      nlinarith [mul_self_nonneg x, mul_self_nonneg y, mul_self_nonneg z])
    subst hx; subst hy; subst hz
    simp [JS.unitization, JS.radiusOf, JS.dotOf, JS.jmul, JS.jadd, JS.jsqrt,
      JS.jdiv, Real.sqrt_zero]
  · intro r hr hrpos
    rw [hrad3] at hr
    have hsr : Real.sqrt (x * x + y * y + z * z) = r := by simpa using hr
    have hrne : r ≠ 0 := ne_of_gt hrpos
    simp [JS.unitization, JS.radiusOf, JS.dotOf, JS.jmul, JS.jadd, JS.jsqrt,
      hS3, hsr, JS.jdiv, hrne]
  · intro h
    rw [hrad2] at h
    have hsq : Real.sqrt (x * x + y * y) = 0 := by simpa using h
    have hle : x * x + y * y ≤ 0 := Real.sqrt_eq_zero'.mp hsq
    have hx : x = 0 := mul_self_eq_zero.mp (by
      nlinarith [mul_self_nonneg x, mul_self_nonneg y])
    have hy : y = 0 := mul_self_eq_zero.mp (by
      nlinarith [mul_self_nonneg x, mul_self_nonneg y])
    subst hx; subst hy
    simp [JS.unitization, JS.radiusOf, JS.dotOf, JS.jmul, JS.jadd, JS.jsqrt,
      JS.jdiv, Real.sqrt_zero]
  · intro r hr hrpos
    rw [hrad2] at hr
    have hsr : Real.sqrt (x * x + y * y) = r := by simpa using hr
    have hrne : r ≠ 0 := ne_of_gt hrpos
    simp [JS.unitization, JS.radiusOf, JS.dotOf, JS.jmul, JS.jadd, JS.jsqrt,
      hS2, hsr, JS.jdiv, hrne]

/-- C1 witness: the round trip evaluated on the concrete orthogonal basis
`(2,1,0), (-1,2,0), (0,0,5)` and target `(1,2,3)`. -/
theorem c1_witness :
    dotOf (⟨2, 1, some 0⟩ : Vector ℚ) ⟨-1, 2, some 0⟩ = 0 ∧
    dotOf (⟨2, 1, some 0⟩ : Vector ℚ) ⟨0, 0, some 5⟩ = 0 ∧
    dotOf (⟨-1, 2, some 0⟩ : Vector ℚ) ⟨0, 0, some 5⟩ = 0 ∧
    (⟨2, 1, some 0⟩ : Vector ℚ) ≠ ZERO ∧
    (⟨-1, 2, some 0⟩ : Vector ℚ) ≠ ZERO ∧
    (⟨0, 0, some 5⟩ : Vector ℚ) ≠ ZERO ∧
    representationOf
        (decomposition (⟨1, 2, some 3⟩ : Vector ℚ)
          ⟨⟨2, 1, some 0⟩, ⟨-1, 2, some 0⟩, ⟨0, 0, some 5⟩⟩)
        ⟨⟨2, 1, some 0⟩, ⟨-1, 2, some 0⟩, ⟨0, 0, some 5⟩⟩ =
      ⟨1, 2, some 3⟩ :=
  ⟨by norm_num [dotOf], by norm_num [dotOf], by norm_num [dotOf],
    by norm_num [ZERO], by norm_num [ZERO], by norm_num [ZERO],
    c1_decompose_represent_roundtrip 2 1 0 (-1) 2 0 0 0 5 1 2 3
      (by norm_num [dotOf]) (by norm_num [dotOf]) (by norm_num [dotOf])
      (by norm_num [ZERO]) (by norm_num [ZERO]) (by norm_num [ZERO])⟩

/-- C2 witness: the store-level `representationOf` evaluated on the concrete
store `wStore` with coefficients `(5, 7, 11)`. -/
theorem c2_witness :
    (0 : ℕ) < wStore.next ∧ (1 : ℕ) < wStore.next ∧ (2 : ℕ) < wStore.next ∧
    (St.representationOf wStore ⟨5, 7, some 11⟩ 0 1 2).2.mem
        (St.representationOf wStore ⟨5, 7, some 11⟩ 0 1 2).1 =
      ⟨5 * 1 + 7 * 0 + 11 * 0, 5 * 0 + 7 * 2 + 11 * 0,
        some (5 * 0 + 7 * 0 + 11 * 3)⟩ ∧
    (St.representationOf wStore ⟨5, 7, some 11⟩ 0 1 2).2.mem 0 = wStore.mem 0 ∧
    (St.representationOf wStore ⟨5, 7, some 11⟩ 0 1 2).2.mem 1 = wStore.mem 1 ∧
    (St.representationOf wStore ⟨5, 7, some 11⟩ 0 1 2).2.mem 2 = wStore.mem 2 :=
  ⟨by decide, by decide, by decide,
    (c2_representationOf_store wStore 0 1 2 5 7 11 1 0 0 0 2 0 0 0 3
        (by decide) (by decide) (by decide) rfl rfl rfl).1,
    (c2_representationOf_store wStore 0 1 2 5 7 11 1 0 0 0 2 0 0 0 3
        (by decide) (by decide) (by decide) rfl rfl rfl).2.1,
    (c2_representationOf_store wStore 0 1 2 5 7 11 1 0 0 0 2 0 0 0 3
        (by decide) (by decide) (by decide) rfl rfl rfl).2.2.1,
    (c2_representationOf_store wStore 0 1 2 5 7 11 1 0 0 0 2 0 0 0 3
        (by decide) (by decide) (by decide) rfl rfl rfl).2.2.2⟩

/-- C4 witness: the screen origin maps to the plane origin for the identity
basis placed at `(5, 7, 11)`, with the trivial square root standing in for
`Math.sqrt` (the claim holds for every square-root function). -/
theorem c4_witness :
    radiusOf (fun q : ℚ => q)
        (visualPlaneOf ⟨identityBasis, ⟨5, 7, some 11⟩⟩).xBasis ≠ 0 ∧
    radiusOf (fun q : ℚ => q)
        (visualPlaneOf ⟨identityBasis, ⟨5, 7, some 11⟩⟩).yBasis ≠ 0 ∧
    screenPositionOf (fun q : ℚ => q) ⟨identityBasis, ⟨5, 7, some 11⟩⟩
        ⟨0, 0, none⟩ =
      (visualPlaneOf ⟨identityBasis, ⟨5, 7, some 11⟩⟩).origin :=
  ⟨by norm_num [radiusOf, dotOf, visualPlaneOf, decomposition, decomposeOnAxis,
      substractOn, cloneOf, ZERO, identityBasis],
    by norm_num [radiusOf, dotOf, visualPlaneOf, decomposition, decomposeOnAxis,
      substractOn, cloneOf, ZERO, identityBasis],
    c4_screen_origin (fun q : ℚ => q) ⟨identityBasis, ⟨5, 7, some 11⟩⟩
      (by norm_num [radiusOf, dotOf, visualPlaneOf, decomposition,
        decomposeOnAxis, substractOn, cloneOf, ZERO, identityBasis])
      (by norm_num [radiusOf, dotOf, visualPlaneOf, decomposition,
        decomposeOnAxis, substractOn, cloneOf, ZERO, identityBasis])⟩

/-- C6 witness: the pipeline functions evaluated on the concrete store
`wStore` leave its three cells unchanged. -/
theorem c6_witness :
    (0 : ℕ) < wStore.next ∧ (1 : ℕ) < wStore.next ∧ (2 : ℕ) < wStore.next ∧
    (((St.planeProjection (fun q : ℚ => q) wStore 0 ⟨0, 1, 2⟩).2.mem 0 =
          wStore.mem 0 ∧
        (St.planeProjection (fun q : ℚ => q) wStore 0 ⟨0, 1, 2⟩).2.mem 0 =
          wStore.mem 0 ∧
        (St.planeProjection (fun q : ℚ => q) wStore 0 ⟨0, 1, 2⟩).2.mem 1 =
          wStore.mem 1 ∧
        (St.planeProjection (fun q : ℚ => q) wStore 0 ⟨0, 1, 2⟩).2.mem 2 =
          wStore.mem 2) ∧
      ((St.visualPlaneOf wStore ⟨0, 1, 2, 2⟩).2.mem 0 = wStore.mem 0 ∧
        (St.visualPlaneOf wStore ⟨0, 1, 2, 2⟩).2.mem 1 = wStore.mem 1 ∧
        (St.visualPlaneOf wStore ⟨0, 1, 2, 2⟩).2.mem 2 = wStore.mem 2 ∧
        (St.visualPlaneOf wStore ⟨0, 1, 2, 2⟩).2.mem 2 = wStore.mem 2) ∧
      ((St.screenPositionOf (fun q : ℚ => q) wStore ⟨0, 1, 2, 2⟩
            ⟨9, 4, none⟩).2.mem 0 = wStore.mem 0 ∧
        (St.screenPositionOf (fun q : ℚ => q) wStore ⟨0, 1, 2, 2⟩
            ⟨9, 4, none⟩).2.mem 1 = wStore.mem 1 ∧
        (St.screenPositionOf (fun q : ℚ => q) wStore ⟨0, 1, 2, 2⟩
            ⟨9, 4, none⟩).2.mem 2 = wStore.mem 2 ∧
        (St.screenPositionOf (fun q : ℚ => q) wStore ⟨0, 1, 2, 2⟩
            ⟨9, 4, none⟩).2.mem 2 = wStore.mem 2)) :=
  ⟨by decide, by decide, by decide,
    c6_pipeline_no_mutation (fun q : ℚ => q) wStore 0 ⟨0, 1, 2⟩ ⟨0, 1, 2, 2⟩
      ⟨9, 4, none⟩ (by decide) (by decide) (by decide) (by decide)
      (by decide) (by decide) (by decide) (by decide)⟩

/-- C7 witness: unitizing the JavaScript zero vector yields all-`NaN`
components, and unitizing `(3, 4, 0)` (magnitude `5`) divides each component
by `5`. -/
theorem c7_witness :
    JS.unitization Real.sqrt ⟨.num 0, .num 0, some (.num 0)⟩ =
      (⟨.nan, .nan, some .nan⟩ : JS.JVec ℝ) ∧
    JS.unitization Real.sqrt ⟨.num 3, .num 4, some (.num 0)⟩ =
      (⟨.num (3 / 5), .num (4 / 5), some (.num (0 / 5))⟩ : JS.JVec ℝ) := by
  have h5 : Real.sqrt ((3 * 3 + 4 * 4 : ℝ) + 0 * 0) = 5 := by
    rw [show ((3 * 3 + 4 * 4 : ℝ) + 0 * 0) = 5 ^ 2 by norm_num]
    exact Real.sqrt_sq (by norm_num)
  have hrad0 : JS.radiusOf Real.sqrt
      (⟨.num 0, .num 0, some (.num 0)⟩ : JS.JVec ℝ) = .num 0 := by
    show JS.jsqrt Real.sqrt (.num ((0 * 0 + 0 * 0 : ℝ) + 0 * 0)) = .num 0
    simp [JS.jsqrt]
  have hrad5 : JS.radiusOf Real.sqrt
      (⟨.num 3, .num 4, some (.num 0)⟩ : JS.JVec ℝ) = .num 5 := by
    show JS.jsqrt Real.sqrt (.num ((3 * 3 + 4 * 4 : ℝ) + 0 * 0)) = .num 5
    simp only [JS.jsqrt]
    rw [if_neg (by norm_num), h5]
  exact ⟨((c7_unitization_zero_nan 0 0 0).1).1 hrad0,
    ((c7_unitization_zero_nan 3 4 0).1).2 5 hrad5 (by norm_num)⟩

end Theorems

end Matrix3d
